import Mathlib

/-!
Verification of the dual-field numeric conversion engine of the flip-input
widget (src/components/themed/FlipInput.js).

JavaScript strings are modelled as `List Char`.  The locale formatting layer
(`formatNumberInput ∘ prettifyNumber` from locales/intl.js, whose source is
not available) is threaded through every conversion as an abstract formatting
function `fmt : List Char → List Char`; no claim constrains its concrete
behaviour, only that display fields are `fmt` of the corresponding decimal
fields.
-/

/-- Characters of a string literal, as the model of a JS string. -/
def str (s : String) : List Char := s.data

/-- Model of the JS `s.replace(',', '.')` (a string pattern replaces only the
first occurrence). Used in `sanitizeDecimalAmount` (FlipInput.js:86) and
`onKeyPress` (FlipInput.js:340). -/
def replaceFirstComma : List Char → List Char
  | [] => []
  | c :: cs => if c = ',' then '.' :: cs else c :: replaceFirstComma cs

/-- A character kept by the sanitizer's regex `/[^0-9.]/g` removal: a decimal
digit or a period. -/
def isDecimalChar (c : Char) : Bool := c.isDigit || c == '.'

/-- Modelled from the spec: `truncateDecimals` of locales/intl.js and of
util/utils.js (their source files are not in the excerpt; only their callers
are).  Spec 4.1 and the glossary: truncation drops excess fractional digits
without rounding and collapses extra embedded periods so the result has at
most one decimal point; an empty input degrades to the zero-equivalent safe
default "0" (spec section 7, and spec section 8 "stabilizes at an empty
string or at 0").  The JS `input.split('.')` destructured to its first two
components is modelled with `takeWhile`/`dropWhile` on the first period. -/
def truncateDecimals (input : List Char) (precision : Nat) (allowBlank : Bool := false) : List Char :=
  let input := if input = [] then (if allowBlank then [] else ['0']) else input
  if !input.contains '.' then input
  else
    let integers := input.takeWhile (· != '.')
    let decimals := ((input.dropWhile (· != '.')).drop 1).takeWhile (· != '.')
    integers ++ '.' :: decimals.take precision

/-- Modelled from the spec: `truncateDecimalsPeriod` of locales/intl.js, the
period-separator variant of `truncateDecimals` (FlipInput.js assumes a US
locale decimal input, FlipInput.js:107, so the two agree). -/
def truncateDecimalsPeriod (input : List Char) (precision : Nat) : List Char :=
  truncateDecimals input precision

/-- The decimal sanitizer, FlipInput.js:84-93: replace the first comma by a
period, strip every character that is not a digit or a period, then truncate
to the entry bound collapsing extra periods. -/
def sanitizeDecimalAmount (amount : List Char) (maxEntryDecimals : Nat) : List Char :=
  truncateDecimalsPeriod ((replaceFirstComma amount).filter isDecimalChar) maxEntryDecimals

/-- Keystroke acceptance check, FlipInput.js:95-105: reject a period when the
accumulator already holds one, and reject any key containing a character
that is neither a digit nor a period (the JS `keyPressed.match(/[^0-9.]/)`). -/
def checkKeyPress (keyPressed decimalAmount : List Char) : Bool :=
  if keyPressed == ['.'] && decimalAmount.contains '.' then false
  else if keyPressed.any (fun c => !(isDecimalChar c)) then false
  else true

/-!
Exact decimal arithmetic: model of the external `biggystring` library
(`bns.mul`, `bns.div`), which the spec (section 6) describes as an
exact-decimal arithmetic library on string-encoded decimals with no binary
floating point.  A nonnegative decimal string is parsed to a numerator and a
fractional scale (value = numerator / 10^scale); results are rendered in
canonical form (no trailing fractional zeros, no bare trailing period).
Division truncates toward zero at the requested precision.  Division by a
zero-valued divisor faults: spec section 4.4 requires the caller to
short-circuit a zero ratio "rather than fault", which presumes that the
underlying division itself faults on zero (the empty string parses as zero,
as every digit-free string does).
-/

/-- Value of a digit list read in base 10. -/
def digitsToNat (cs : List Char) : Nat :=
  cs.foldl (fun n c => 10 * n + (c.toNat - 48)) 0

/-- Parse a decimal string: numerator and fractional scale. -/
def parseDec (cs : List Char) : Nat × Nat :=
  let ip := (cs.takeWhile (· != '.')).filter Char.isDigit
  let fp := ((cs.dropWhile (· != '.')).drop 1).filter Char.isDigit
  (digitsToNat (ip ++ fp), fp.length)

/-- Remove trailing fractional zeros from a scaled natural. -/
def canonScale : Nat → Nat → Nat × Nat
  | n, 0 => (n, 0)
  | n, s + 1 => if n % 10 = 0 then canonScale (n / 10) s else (n, s + 1)

/-- Render `n / 10^scale` as a canonical decimal string. -/
def renderDec (n : Nat) (scale : Nat) : List Char :=
  let p := canonScale n scale
  if p.2 = 0 then Nat.toDigits 10 p.1
  else
    let frac := Nat.toDigits 10 (p.1 % 10 ^ p.2)
    Nat.toDigits 10 (p.1 / 10 ^ p.2) ++ '.' :: (List.replicate (p.2 - frac.length) '0' ++ frac)

/-- Modelled from the spec: `bns.mul` — exact decimal multiplication. -/
def bmul (x y : List Char) : List Char :=
  renderDec ((parseDec x).1 * (parseDec y).1) ((parseDec x).2 + (parseDec y).2)

/-- Modelled from the spec: `bns.div` — exact decimal division truncated to
`precision` fractional digits; faults on a zero-valued divisor. -/
def bdiv (x y : List Char) (precision : Nat) : Except String (List Char) :=
  if (parseDec y).1 = 0 then .error "Division by zero"
  else .ok (renderDec ((parseDec x).1 * 10 ^ ((parseDec y).2 + precision) /
    ((parseDec y).1 * 10 ^ (parseDec x).2)) precision)

/-- Currency field metadata, FlipInput.js:18-31 (display-only fields such as
the currency name or symbol are irrelevant to every claim and omitted). -/
structure FlipInputFieldInfo where
  maxEntryDecimals : Nat
  maxConversionDecimals : Nat

/-- The engine-relevant props, FlipInput.js:46-73 (presentation-only props
omitted). -/
structure Props where
  overridePrimaryDecimalAmount : List Char
  exchangeSecondaryToPrimaryRatio : List Char
  primaryInfo : FlipInputFieldInfo
  secondaryInfo : FlipInputFieldInfo
  forceUpdateGuiCounter : Nat

/-- The four amount fields recomputed by every conversion, FlipInput.js:77-82. -/
structure Amounts where
  primaryDecimalAmount : List Char
  primaryDisplayAmount : List Char
  secondaryDecimalAmount : List Char
  secondaryDisplayAmount : List Char

/-- The engine-relevant component state, FlipInput.js:33-44 (focus and
rerender counters are presentation-only and omitted). -/
structure EngineState where
  isToggled : Bool
  overridePrimaryDecimalAmount : List Char
  forceUpdateGuiCounter : Nat
  primaryDisplayAmount : List Char
  secondaryDisplayAmount : List Char
  primaryDecimalAmount : List Char
  secondaryDecimalAmount : List Char

/-- Primary-to-secondary conversion, FlipInput.js:108-123: keep the primary
decimal as given, multiply by the exchange ratio, truncate to the secondary
conversion bound, and format both displays.  Total (always `.ok`); the
`Except` return type matches `setSecondaryToPrimary`, with which it is
interchangeable at every call site. -/
def setPrimaryToSecondary (props : Props) (fmt : List Char → List Char)
    (primaryDecimalAmount : List Char) : Except String Amounts :=
  let primaryDisplayAmount := fmt primaryDecimalAmount
  let secondaryDecimalAmount :=
    truncateDecimals (bmul primaryDecimalAmount props.exchangeSecondaryToPrimaryRatio)
      props.secondaryInfo.maxConversionDecimals
  let secondaryDisplayAmount := fmt secondaryDecimalAmount
  .ok { primaryDecimalAmount, primaryDisplayAmount, secondaryDecimalAmount, secondaryDisplayAmount }

/-- Secondary-to-primary conversion, FlipInput.js:126-132: keep the secondary
decimal as given; if the ratio is the literal string "0" the derived primary
is "0", otherwise divide to 18 fractional digits; then truncate to the
primary conversion bound and format both displays.  Faults when the division
faults (ratio parsing to zero without being the literal "0"). -/
def setSecondaryToPrimary (props : Props) (fmt : List Char → List Char)
    (secondaryDecimalAmount : List Char) : Except String Amounts :=
  let secondaryDisplayAmount := fmt secondaryDecimalAmount
  match (if props.exchangeSecondaryToPrimaryRatio = str "0" then Except.ok (str "0")
         else bdiv secondaryDecimalAmount props.exchangeSecondaryToPrimaryRatio 18) with
  | .error e => .error e
  | .ok q =>
    let primaryDecimalAmount := truncateDecimals q props.primaryInfo.maxConversionDecimals
    .ok { primaryDecimalAmount, primaryDisplayAmount := fmt primaryDecimalAmount,
          secondaryDecimalAmount, secondaryDisplayAmount }

/-- Copy a conversion result into the component state. -/
def applyAmounts (st : EngineState) (a : Amounts) : EngineState :=
  { st with
    primaryDecimalAmount := a.primaryDecimalAmount
    primaryDisplayAmount := a.primaryDisplayAmount
    secondaryDecimalAmount := a.secondaryDecimalAmount
    secondaryDisplayAmount := a.secondaryDisplayAmount }

/-- `setStateAmounts`, FlipInput.js:348-351: run the conversion, commit the
resulting amounts, and invoke `onAmountChanged` exactly once with the new
primary decimal amount (the second component collects the emitted callback
invocations). -/
def setStateAmounts (props : Props) (fmt : List Char → List Char) (st : EngineState)
    (decimalAmount : List Char)
    (setAmounts : Props → (List Char → List Char) → List Char → Except String Amounts) :
    Except String (EngineState × List (List Char)) :=
  match setAmounts props fmt decimalAmount with
  | .error e => .error e
  | .ok a => .ok (applyAmounts st a, [a.primaryDecimalAmount])

/-- The keystroke handler, FlipInput.js:339-346: normalize a comma to a
period; a Backspace drops the last character and re-truncates; an accepted
digit or period is appended and re-truncated; any other key is ignored. -/
def onKeyPress (props : Props) (fmt : List Char → List Char) (st : EngineState)
    (keyPressed decimalAmount : List Char) (maxEntryDecimals : Nat)
    (setAmounts : Props → (List Char → List Char) → List Char → Except String Amounts) :
    Except String (EngineState × List (List Char)) :=
  let keyPressed := replaceFirstComma keyPressed
  if keyPressed = str "Backspace" then
    setStateAmounts props fmt st (truncateDecimals decimalAmount.dropLast maxEntryDecimals) setAmounts
  else if checkKeyPress keyPressed decimalAmount then
    setStateAmounts props fmt st (truncateDecimals (decimalAmount ++ keyPressed) maxEntryDecimals) setAmounts
  else
    .ok (st, [])

/-- The accumulator produced by a processed keystroke, or `none` when the
keystroke is rejected (mirrors the branch structure of `onKeyPress`). -/
def acceptedAccum (keyPressed decimalAmount : List Char) (maxEntryDecimals : Nat) :
    Option (List Char) :=
  let keyPressed := replaceFirstComma keyPressed
  if keyPressed = str "Backspace" then
    some (truncateDecimals decimalAmount.dropLast maxEntryDecimals)
  else if checkKeyPress keyPressed decimalAmount then
    some (truncateDecimals (decimalAmount ++ keyPressed) maxEntryDecimals)
  else
    none

/-- The evolution of the active side's raw accumulator under one keystroke
(the active side's decimal amount passes through the conversion unchanged, so
this is exactly its trajectory in `onKeyPress`). -/
def keyAccumStep (maxEntryDecimals : Nat) (decimalAmount keyPressed : List Char) : List Char :=
  match acceptedAccum keyPressed decimalAmount maxEntryDecimals with
  | some acc => acc
  | none => decimalAmount

/-- One Backspace keystroke acting on the accumulator. -/
def backspaceStep (maxEntryDecimals : Nat) (decimalAmount : List Char) : List Char :=
  keyAccumStep maxEntryDecimals decimalAmount (str "Backspace")

/-- The amount fields of a state, for stating recomputation equalities. -/
def amountsOfState (st : EngineState) : Amounts :=
  { primaryDecimalAmount := st.primaryDecimalAmount
    primaryDisplayAmount := st.primaryDisplayAmount
    secondaryDecimalAmount := st.secondaryDecimalAmount
    secondaryDisplayAmount := st.secondaryDisplayAmount }

/-- External update reconciliation, FlipInput.js:227-250: a changed override
amount or force-update counter is authoritative and repopulates both sides
from the sanitized override; otherwise only the derived side is recomputed
from whichever side is active.  The deferred currency-change reset
(FlipInput.js:247-249) is a timer-scheduled separate event (spec section 5)
and is not part of this synchronous transition. -/
def componentWillReceiveProps (nextProps : Props) (fmt : List Char → List Char)
    (st : EngineState) : Except String EngineState :=
  if nextProps.overridePrimaryDecimalAmount ≠ st.overridePrimaryDecimalAmount ∨
      nextProps.forceUpdateGuiCounter ≠ st.forceUpdateGuiCounter then
    match setPrimaryToSecondary nextProps fmt
        (sanitizeDecimalAmount nextProps.overridePrimaryDecimalAmount
          nextProps.primaryInfo.maxEntryDecimals) with
    | .error e => .error e
    | .ok a =>
      .ok { applyAmounts st a with
            overridePrimaryDecimalAmount := nextProps.overridePrimaryDecimalAmount
            forceUpdateGuiCounter := nextProps.forceUpdateGuiCounter }
  else
    if st.isToggled = false then
      match setPrimaryToSecondary nextProps fmt st.primaryDecimalAmount with
      | .error e => .error e
      | .ok a => .ok (applyAmounts st a)
    else
      match setSecondaryToPrimary nextProps fmt st.secondaryDecimalAmount with
      | .error e => .error e
      | .ok a => .ok (applyAmounts st a)

/-- The paste replay loop over the primary side, FlipInput.js:481-483: each
clipboard character goes through `onKeyPress` against the current primary
accumulator.  A thrown conversion error stops the loop, preserving the state
reached so far (state updates already committed persist). -/
def pasteLoopPrimary (props : Props) (fmt : List Char → List Char) :
    EngineState → List (List Char) → List Char →
    EngineState × List (List Char) × Option String
  | st, calls, [] => (st, calls, none)
  | st, calls, c :: rest =>
    match onKeyPress props fmt st [c] st.primaryDecimalAmount
        props.primaryInfo.maxEntryDecimals setPrimaryToSecondary with
    | .error e => (st, calls, some e)
    | .ok (st', newCalls) => pasteLoopPrimary props fmt st' (calls ++ newCalls) rest

/-- The paste replay loop over the secondary side, FlipInput.js:476-478. -/
def pasteLoopSecondary (props : Props) (fmt : List Char → List Char) :
    EngineState → List (List Char) → List Char →
    EngineState × List (List Char) × Option String
  | st, calls, [] => (st, calls, none)
  | st, calls, c :: rest =>
    match onKeyPress props fmt st [c] st.secondaryDecimalAmount
        props.secondaryInfo.maxEntryDecimals setSecondaryToPrimary with
    | .error e => (st, calls, some e)
    | .ok (st', newCalls) => pasteLoopSecondary props fmt st' (calls ++ newCalls) rest

/-- The clipboard bulk-paste operation, FlipInput.js:471-488.  The first
argument of the result is the final state, the second the emitted
`onAmountChanged` invocations, the third the errors reported to `showError`.
A failed clipboard read is caught and reported with no state change.  Note
that BOTH branches clear through `setSecondaryToPrimary` applied to the
empty string (FlipInput.js:475 and, sic, FlipInput.js:480): in the
primary-active branch this sets the derived primary amount to "0" rather
than clearing it to the empty string. -/
def handlePasteClipboard (props : Props) (fmt : List Char → List Char) (st : EngineState)
    (clipboard : Except String (List Char)) :
    EngineState × List (List Char) × List String :=
  match clipboard with
  | .error e => (st, [], [e])
  | .ok content =>
    if st.isToggled then
      match setStateAmounts props fmt st [] setSecondaryToPrimary with
      | .error e => (st, [], [e])
      | .ok (st1, calls1) =>
        match pasteLoopSecondary props fmt st1 calls1 content with
        | (st2, calls2, none) => (st2, calls2, [])
        | (st2, calls2, some e) => (st2, calls2, [e])
    else
      match setStateAmounts props fmt st [] setSecondaryToPrimary with
      | .error e => (st, [], [e])
      | .ok (st1, calls1) =>
        match pasteLoopPrimary props fmt st1 calls1 content with
        | (st2, calls2, none) => (st2, calls2, [])
        | (st2, calls2, some e) => (st2, calls2, [e])

/-- Modelled from the spec: the bulk-paste contract of spec section 4.7 —
first clear the currently active side's accumulator to empty, then replay
each clipboard character through the keystroke accumulator of the active
side, exactly as if the user typed the pasted text character by character. -/
def pasteReplaySpec (props : Props) (fmt : List Char → List Char) (st : EngineState)
    (content : List Char) : EngineState × List (List Char) × Option String :=
  if st.isToggled then
    pasteLoopSecondary props fmt { st with secondaryDecimalAmount := [] } [] content
  else
    pasteLoopPrimary props fmt { st with primaryDecimalAmount := [] } [] content

/-! Concrete fixtures used by the closed instances below. -/

/-- An empty initial engine state (primary side active). -/
def st0 : EngineState :=
  { isToggled := false
    overridePrimaryDecimalAmount := []
    forceUpdateGuiCounter := 0
    primaryDisplayAmount := []
    secondaryDisplayAmount := []
    primaryDecimalAmount := []
    secondaryDecimalAmount := [] }

/-- A state with the secondary side active holding the raw amount "1". -/
def stSec : EngineState :=
  { st0 with isToggled := true, secondaryDecimalAmount := str "1" }

/-- Ratio "2", conversion and entry bounds 8 on both sides. -/
def propsRT : Props :=
  { overridePrimaryDecimalAmount := []
    exchangeSecondaryToPrimaryRatio := str "2"
    primaryInfo := { maxEntryDecimals := 8, maxConversionDecimals := 8 }
    secondaryInfo := { maxEntryDecimals := 8, maxConversionDecimals := 8 }
    forceUpdateGuiCounter := 0 }

/-- Ratio "3", secondary conversion bound 2, primary conversion bound 8. -/
def propsC1x : Props :=
  { propsRT with
    exchangeSecondaryToPrimaryRatio := str "3",
    secondaryInfo := { maxEntryDecimals := 8, maxConversionDecimals := 2 } }

/-- Ratio "650.25", primary entry bound 8, secondary conversion bound 2. -/
def propsC7 : Props :=
  { propsRT with
    exchangeSecondaryToPrimaryRatio := str "650.25",
    secondaryInfo := { maxEntryDecimals := 2, maxConversionDecimals := 2 } }

/-- The empty exchange ratio (rate unknown). -/
def propsEmptyRatio : Props :=
  { propsRT with exchangeSecondaryToPrimaryRatio := [] }

/-- The literal "0" exchange ratio (rate unknown). -/
def propsZeroRatio : Props :=
  { propsRT with exchangeSecondaryToPrimaryRatio := str "0" }

/-- Number of period characters in an accumulator. -/
def dotCount (cs : List Char) : Nat := cs.countP (· == '.')

/-- A state with the primary side active holding the raw amount "1.5". -/
def stTyped : EngineState := { st0 with primaryDecimalAmount := str "1.5" }

/-- The state produced by a ratio-only props update on `stTyped` under
`propsRT`: the primary amount is untouched and the secondary is recomputed. -/
def stW : EngineState :=
  { st0 with
    primaryDecimalAmount := str "1.5"
    primaryDisplayAmount := str "1.5"
    secondaryDecimalAmount := str "3"
    secondaryDisplayAmount := str "3" }

/-- The conversion result for an accepted "1" keystroke on the empty primary
accumulator under `propsRT`. -/
def amountsW : Amounts :=
  { primaryDecimalAmount := str "1"
    primaryDisplayAmount := str "1"
    secondaryDecimalAmount := str "2"
    secondaryDisplayAmount := str "2" }

/-! Theorems. -/

/-- C1, counterexample.  The claim states that for every decimal `d` and
ratio `r` the round trip (primary-to-secondary then secondary-to-primary)
yields `d` truncated to the bound `min(primaryInfo.maxConversionDecimals,
secondary-derived precision)`.  At `d` = "1.23456789", ratio "3", secondary
conversion bound 2, primary conversion bound 8, the round trip yields
"1.23333333", which is not `d` truncated to any number of fractional digits
(in particular not to any bound at most 8), so the claim as stated is false:
digits discarded by the secondary truncation are not recovered and the
result is not a truncation of `d` at all. -/
theorem c1_roundtrip_counterexample :
    ((setPrimaryToSecondary propsC1x id (str "1.23456789")).bind
        (fun a => setSecondaryToPrimary propsC1x id a.secondaryDecimalAmount)).map
      (fun a => a.primaryDecimalAmount) = .ok (str "1.23333333") ∧
    ((List.range 9).all
      (fun j => str "1.23333333" != truncateDecimals (str "1.23456789") j)) = true := by
  exact ⟨rfl, rfl⟩

/-- C1, amended.  The conversions use exact decimal arithmetic, so precision
is lost only through the explicit truncation bounds; when those truncations
discard nothing the round trip is exact.  In particular, for primary
"1.23456789" with ratio "2" and bounds 8 on both sides, the forward
conversion yields exactly "2.46913578" and converting back yields exactly
"1.23456789". -/
theorem c1_roundtrip_amended :
    (setPrimaryToSecondary propsRT id (str "1.23456789")).map
      (fun a => a.secondaryDecimalAmount) = .ok (str "2.46913578") ∧
    (setSecondaryToPrimary propsRT id (str "2.46913578")).map
      (fun a => a.primaryDecimalAmount) = .ok (str "1.23456789") := by
  exact ⟨rfl, rfl⟩

/-- C2.  The secondary-to-primary conversion short-circuits only the literal
ratio string "0" (for which the derived primary decimal is exactly "0", with
no fault, for the amount "1" shown here); with the empty-string ratio the
guard does not match, `bns.div` is reached with a divisor parsing to zero,
and the conversion faults instead of returning "0" — contradicting the
claim that an empty ratio also short-circuits to "0" without throwing. -/
theorem c2_zero_ratio_behaviour :
    setSecondaryToPrimary propsEmptyRatio id (str "1") = .error "Division by zero" ∧
    (setSecondaryToPrimary propsZeroRatio id (str "1")).map
      (fun a => a.primaryDecimalAmount) = .ok (str "0") := by
  exact ⟨rfl, rfl⟩

/-- C3.  With the primary side active, ratio "2" and clipboard "1", the
bulk-paste operation leaves the primary decimal amount at "01": the clearing
step (FlipInput.js:480) runs `setSecondaryToPrimary` on the empty string,
which sets the primary amount to the derived value "0" instead of clearing
it to empty, and the replay then appends onto that "0".  The spec's contract
(clear the active accumulator to empty, then replay; modelled by
`pasteReplaySpec`) yields "1" on the same input. -/
theorem c3_paste_eval :
    (handlePasteClipboard propsRT id st0 (.ok (str "1"))).1.primaryDecimalAmount = str "01" ∧
    (pasteReplaySpec propsRT id st0 (str "1")).1.primaryDecimalAmount = str "1" := by
  exact ⟨rfl, rfl⟩

/-- C9.  When the clipboard read fails, the paste operation reports the
error to the external error sink, emits no amount-changed callback, and
leaves the engine state exactly as it was: the active side's accumulator is
cleared only after a successful read. -/
theorem c9_paste_read_failure (props : Props) (fmt : List Char → List Char)
    (st : EngineState) (e : String) :
    handlePasteClipboard props fmt st (.error e) = (st, [], [e]) := rfl

/-- C7.  Typing "1", ".", "5" into the primary field (primary entry bound 8,
secondary conversion bound 2, ratio "650.25") leaves the primary decimal
amount at "1.5" and derives the secondary decimal amount
truncate(1.5 × 650.25, 2) = "975.37": the conversion multiplies with exact
decimal arithmetic and truncates to the secondary conversion bound. -/
theorem c7_scenario_eval :
    (pasteLoopPrimary propsC7 id st0 [] (str "1.5")).1.primaryDecimalAmount = str "1.5" ∧
    (pasteLoopPrimary propsC7 id st0 [] (str "1.5")).1.secondaryDecimalAmount = str "975.37" := by
  exact ⟨rfl, rfl⟩

/-! Helper lemmas about `truncateDecimals`. -/

theorem contains_eq_mem (l : List Char) (a : Char) : l.contains a = true ↔ a ∈ l :=
  List.elem_iff

theorem mem_ne_dot_of_takeWhile {l : List Char} {a : Char}
    (h : a ∈ l.takeWhile (fun c => c != '.')) : a ≠ '.' := by
  have := List.mem_takeWhile_imp h
  simpa using this

theorem truncateDecimals_nil (n : Nat) : truncateDecimals [] n = ['0'] := rfl

theorem truncateDecimals_of_ne_nil (u : List Char) (n : Nat) (h : u ≠ []) :
    truncateDecimals u n =
      if u.contains '.' then
        u.takeWhile (fun c => c != '.') ++
          '.' :: (((u.dropWhile (fun c => c != '.')).drop 1).takeWhile (fun c => c != '.')).take n
      else u := by
  simp only [truncateDecimals, if_neg h]
  by_cases hc : u.contains '.' <;> simp [hc]

theorem dropWhile_cons_dot (u : List Char) (hc : '.' ∈ u) :
    ∃ R, u.dropWhile (fun c => c != '.') = '.' :: R := by
  induction u with
  | nil => cases hc
  | cons c cs ih =>
    by_cases h : c = '.'
    · subst h
      exact ⟨cs, by rw [List.dropWhile_cons_of_neg (by simp)]⟩
    · have hc' : '.' ∈ cs := by
        rcases List.mem_cons.mp hc with h1 | h1
        · exact absurd h1.symm h
        · exact h1
      rcases ih hc' with ⟨R, hR⟩
      exact ⟨R, by rw [List.dropWhile_cons_of_pos (by simp [h]), hR]⟩

theorem takeWhile_eq_self_of_all {p : Char → Bool} {l : List Char}
    (h : ∀ a ∈ l, p a) : l.takeWhile p = l := by
  induction l with
  | nil => rfl
  | cons c cs ih =>
    rw [List.takeWhile_cons_of_pos (h c (by simp)), ih (fun a ha => h a (by simp [ha]))]

theorem truncateDecimals_shape (u : List Char) (n : Nat) (h : u ≠ []) :
    (u.contains '.' = false ∧ truncateDecimals u n = u) ∨
    (∃ I D, truncateDecimals u n = I ++ '.' :: D ∧ I ⊆ u ∧ D ⊆ u ∧
      (∀ a ∈ I, a ≠ '.') ∧ (∀ a ∈ D, a ≠ '.') ∧ D.length ≤ n ∧
      I.length + 1 + D.length ≤ u.length) := by
  by_cases hc : u.contains '.'
  · right
    refine ⟨u.takeWhile (fun c => c != '.'),
      (((u.dropWhile (fun c => c != '.')).drop 1).takeWhile (fun c => c != '.')).take n,
      ?_, ?_, ?_, ?_, ?_, ?_, ?_⟩
    · rw [truncateDecimals_of_ne_nil u n h, if_pos hc]
    · intro a ha
      exact List.takeWhile_subset _ ha
    · intro a ha
      exact List.dropWhile_subset _ (List.drop_subset 1 _ (List.takeWhile_subset _ (List.take_subset n _ ha)))
    · intro a ha
      exact mem_ne_dot_of_takeWhile ha
    · intro a ha
      exact mem_ne_dot_of_takeWhile (List.take_subset n _ ha)
    · rw [List.length_take]
      exact Nat.min_le_left _ _
    · obtain ⟨R, hR⟩ := dropWhile_cons_dot u ((contains_eq_mem u '.').mp hc)
    
      have hu : u.takeWhile (fun c => c != '.') ++ '.' :: R = u := by
        conv_rhs => rw [← List.takeWhile_append_dropWhile (fun c => c != '.') u]
        rw [hR]
      have hlen : (u.takeWhile (fun c => c != '.')).length + 1 + R.length = u.length := by
        have h3 := congrArg List.length hu
        simp [List.length_append] at h3
        omega
      have hD : ((((u.dropWhile (fun c => c != '.')).drop 1).takeWhile (fun c => c != '.')).take n).length ≤ R.length := by
        rw [hR]
        have h1 : (('.' :: R).drop 1) = R := rfl
        rw [h1]
        have h2 : ((R.takeWhile (fun c => c != '.')).take n).length ≤ (R.takeWhile (fun c => c != '.')).length := by
          rw [List.length_take]
          exact Nat.min_le_right _ _
        exact le_trans h2 (List.takeWhile_sublist _).length_le
      omega
  · left
    have hc' : u.contains '.' = false := by simpa using hc
    exact ⟨hc', by rw [truncateDecimals_of_ne_nil u n h, if_neg (by rw [hc']; simp)]⟩

theorem truncateDecimals_ne_nil (u : List Char) (n : Nat) : truncateDecimals u n ≠ [] := by
  by_cases h : u = []
  · subst h
    rw [truncateDecimals_nil]
    simp
  · rcases truncateDecimals_shape u n h with ⟨_, h2⟩ | ⟨I, D, h2, _⟩
    · rw [h2]; exact h
    · rw [h2]; simp

theorem dotCount_truncateDecimals_le_one (u : List Char) (n : Nat) :
    dotCount (truncateDecimals u n) ≤ 1 := by
  by_cases h : u = []
  · subst h
    rw [truncateDecimals_nil]
    decide
  · rcases truncateDecimals_shape u n h with ⟨hc, h2⟩ | ⟨I, D, h2, _, _, hI, hD, _, _⟩
    · rw [h2]
      have hz : ∀ a ∈ u, ¬((a == '.') = true) := by
        intro a ha hbeq
        have ha' : a = '.' := by simpa using hbeq
        subst ha'
        exact absurd ((contains_eq_mem u '.').mpr ha) (by rw [hc]; simp)
      unfold dotCount
      rw [List.countP_eq_zero.mpr hz]
      omega
    · rw [h2]
      unfold dotCount
      rw [List.countP_append]
      have hIc : I.countP (· == '.') = 0 :=
        List.countP_eq_zero.mpr (fun a ha h' => hI a ha (by simpa using h'))
      have hDc : D.countP (· == '.') = 0 :=
        List.countP_eq_zero.mpr (fun a ha h' => hD a ha (by simpa using h'))
      rw [hIc, List.countP_cons_of_pos _ _ (by simp), hDc]

theorem mem_truncateDecimals_isDecimal (u : List Char) (n : Nat)
    (hu : ∀ a ∈ u, isDecimalChar a = true) :
    ∀ a ∈ truncateDecimals u n, isDecimalChar a = true := by
  by_cases h : u = []
  · subst h
    rw [truncateDecimals_nil]
    intro a ha
    simp at ha
    subst ha
    decide
  · rcases truncateDecimals_shape u n h with ⟨_, h2⟩ | ⟨I, D, h2, hIs, hDs, _, _⟩
    · rw [h2]; exact hu
    · rw [h2]
      intro a ha
      rcases List.mem_append.mp ha with ha | ha
      · exact hu a (hIs ha)
      · rcases List.mem_cons.mp ha with rfl | ha
        · decide
        · exact hu a (hDs ha)

theorem truncateDecimals_idem (u : List Char) (n : Nat) :
    truncateDecimals (truncateDecimals u n) n = truncateDecimals u n := by
  by_cases h : u = []
  · subst h
    rw [truncateDecimals_nil]
    rfl
  · rcases truncateDecimals_shape u n h with ⟨_, h2⟩ | ⟨I, D, h2, _, _, hI, hD, hDn, _⟩
    · rw [h2]
      exact h2
    · have hq : ∀ a ∈ I, (fun c => c != '.') a = true := fun a ha => by simp [hI a ha]
      rw [h2]
      rw [truncateDecimals_of_ne_nil _ n (by simp)]
      rw [if_pos (by rw [contains_eq_mem]; simp)]
      rw [List.takeWhile_append_of_pos hq, List.dropWhile_append_of_pos hq]
      rw [List.takeWhile_cons_of_neg (by simp), List.dropWhile_cons_of_neg (by simp)]
      have h1 : (('.' :: D).drop 1) = D := rfl
      rw [h1, takeWhile_eq_self_of_all (fun a ha => by simp [hD a ha])]
      rw [List.take_of_length_le hDn]
      simp

theorem replaceFirstComma_eq_self {l : List Char} (h : ∀ a ∈ l, a ≠ ',') :
    replaceFirstComma l = l := by
  induction l with
  | nil => rfl
  | cons c cs ih =>
    simp only [replaceFirstComma]
    rw [if_neg (h c (by simp)), ih (fun a ha => h a (by simp [ha]))]

theorem sanitize_chars (s : List Char) (n : Nat) :
    ∀ a ∈ sanitizeDecimalAmount s n, isDecimalChar a = true := by
  intro a ha
  exact mem_truncateDecimals_isDecimal _ n (fun b hb => (List.mem_filter.mp hb).2) a ha

/-- C8.  The decimal sanitizer is idempotent: for every string `s` and every
bound `n`, sanitizing an already-sanitized string changes nothing.  The
sanitizer is also total by construction (it is a plain function defined on
all strings; malformed input degrades to best-effort cleanup).  Every
character of a sanitized string is a digit or a period, so the comma
replacement and the character strip are identities on it, and truncation
itself is idempotent. -/
theorem c8_sanitize_idempotent (s : List Char) (n : Nat) :
    sanitizeDecimalAmount (sanitizeDecimalAmount s n) n = sanitizeDecimalAmount s n := by
  have hchars := sanitize_chars s n
  have h1 : replaceFirstComma (sanitizeDecimalAmount s n) = sanitizeDecimalAmount s n :=
    replaceFirstComma_eq_self (fun a ha => by
      have h' := hchars a ha
      intro hEq
      subst hEq
      exact absurd h' (by decide))
  have h2 : (sanitizeDecimalAmount s n).filter isDecimalChar = sanitizeDecimalAmount s n :=
    List.filter_eq_self.mpr hchars
  calc sanitizeDecimalAmount (sanitizeDecimalAmount s n) n
      = truncateDecimalsPeriod ((replaceFirstComma (sanitizeDecimalAmount s n)).filter isDecimalChar) n := rfl
    _ = truncateDecimalsPeriod (sanitizeDecimalAmount s n) n := by rw [h1, h2]
    _ = truncateDecimals (truncateDecimals ((replaceFirstComma s).filter isDecimalChar) n) n := rfl
    _ = truncateDecimals ((replaceFirstComma s).filter isDecimalChar) n := truncateDecimals_idem _ n
    _ = sanitizeDecimalAmount s n := rfl

theorem keyAccumStep_cases (m : Nat) (acc key : List Char) :
    keyAccumStep m acc key = acc ∨ ∃ v, keyAccumStep m acc key = truncateDecimals v m := by
  by_cases h1 : replaceFirstComma key = str "Backspace"
  · exact Or.inr ⟨acc.dropLast, by simp [keyAccumStep, acceptedAccum, h1]⟩
  · by_cases h2 : checkKeyPress (replaceFirstComma key) acc
    · exact Or.inr ⟨acc ++ replaceFirstComma key, by simp [keyAccumStep, acceptedAccum, h1, h2]⟩
    · exact Or.inl (by simp [keyAccumStep, acceptedAccum, h1, h2])

/-- C6.  The at-most-one-period invariant of the keystroke accumulator:
a period key is rejected by `checkKeyPress` whenever the accumulator
already contains a period; a single keystroke (of any kind) preserves
"at most one period" (every processed keystroke ends in `truncateDecimals`,
whose output always has at most one period, and a rejected keystroke leaves
the accumulator unchanged); hence every sequence of keystrokes — digits,
periods, backspaces, or anything else — preserves the invariant at every
step. -/
theorem c6_single_dot_invariant :
    (∀ acc : List Char, acc.contains '.' = true → checkKeyPress ['.'] acc = false) ∧
    (∀ (m : Nat) (acc key : List Char), dotCount acc ≤ 1 → dotCount (keyAccumStep m acc key) ≤ 1) ∧
    (∀ (m : Nat) (keys : List (List Char)) (acc : List Char), dotCount acc ≤ 1 →
      dotCount (keys.foldl (keyAccumStep m) acc) ≤ 1) := by
  have hstep : ∀ (m : Nat) (acc key : List Char), dotCount acc ≤ 1 →
      dotCount (keyAccumStep m acc key) ≤ 1 := by
    intro m acc key h
    rcases keyAccumStep_cases m acc key with h1 | ⟨v, h1⟩
    · rw [h1]; exact h
    · rw [h1]; exact dotCount_truncateDecimals_le_one v m
  refine ⟨?_, hstep, ?_⟩
  · intro acc h
    simp only [checkKeyPress, h]
    decide
  · intro m keys
    induction keys with
    | nil => intro acc h; exact h
    | cons k ks ih =>
      intro acc h
      exact ih _ (hstep m acc k h)

/-- C6, witness: starting from the accumulator "1.2" (one period), pressing
".", "5", "." (with entry bound 8) leaves at most one period. -/
theorem c6_single_dot_invariant_witness :
    dotCount ([['.'], ['5'], ['.']].foldl (keyAccumStep 8) (str "1.2")) ≤ 1 :=
  c6_single_dot_invariant.2.2 8 [['.'], ['5'], ['.']] (str "1.2") (by decide)

theorem backspaceStep_eq (m : Nat) (acc : List Char) :
    backspaceStep m acc = truncateDecimals acc.dropLast m := rfl

theorem backspaceStep_small (m : Nat) (acc : List Char) (h : acc.length ≤ 1) :
    backspaceStep m acc = ['0'] := by
  cases acc with
  | nil => rfl
  | cons c t =>
    cases t with
    | nil => rfl
    | cons d t2 => simp at h

theorem backspaceStep_zero (m : Nat) : backspaceStep m ['0'] = ['0'] := rfl

theorem backspaceStep_len (m : Nat) (acc : List Char) (h : 2 ≤ acc.length) :
    (backspaceStep m acc).length ≤ acc.length - 1 := by
  rw [backspaceStep_eq]
  have hlen : acc.dropLast.length = acc.length - 1 := List.length_dropLast acc
  have hne : acc.dropLast ≠ [] := by
    intro hE
    rw [hE] at hlen
    simp at hlen
    omega
  rcases truncateDecimals_shape acc.dropLast m hne with ⟨_, h2⟩ | ⟨I, D, h2, _, _, _, _, _, hlen2⟩
  · rw [h2]; omega
  · rw [h2]
    simp [List.length_append] at hlen2 ⊢
    omega

theorem backspace_reaches_zero (m : Nat) : ∀ (n : Nat) (acc : List Char), acc.length ≤ n →
    (backspaceStep m)^[n + 1] acc = ['0'] := by
  intro n
  induction n with
  | zero =>
    intro acc h
    have hnil : acc = [] := List.eq_nil_of_length_eq_zero (Nat.le_zero.mp h)
    subst hnil
    rw [Function.iterate_one]
    rfl
  | succ n ih =>
    intro acc h
    rw [Function.iterate_succ_apply]
    by_cases h1 : acc.length ≤ 1
    · rw [backspaceStep_small m acc h1]
      exact Function.iterate_fixed (backspaceStep_zero m) (n + 1)
    · have h2 : 2 ≤ acc.length := by omega
      have h3 := backspaceStep_len m acc h2
      exact ih _ (by omega)

/-- C10.  Repeated backspace is safe and stabilizing: applying the backspace
operation (drop the last character, then re-truncate, FlipInput.js:342)
`length + 1` times to any accumulator yields exactly "0", and "0" is a fixed
point, so further backspaces leave it there.  All operations are total
functions on `List Char` (never a fault, never a negative length). -/
theorem c10_backspace_floor :
    (∀ (m : Nat) (acc : List Char), (backspaceStep m)^[acc.length + 1] acc = ['0']) ∧
    (∀ m : Nat, backspaceStep m ['0'] = ['0']) :=
  ⟨fun m acc => backspace_reaches_zero m acc.length acc (Nat.le_refl _), backspaceStep_zero⟩

theorem setPrimaryToSecondary_keeps (props : Props) (fmt : List Char → List Char)
    (s : List Char) (a : Amounts) (h : setPrimaryToSecondary props fmt s = .ok a) :
    a.primaryDecimalAmount = s := by
  unfold setPrimaryToSecondary at h
  injection h with h2
  subst h2
  rfl

theorem setSecondaryToPrimary_keeps (props : Props) (fmt : List Char → List Char)
    (s : List Char) (a : Amounts) (h : setSecondaryToPrimary props fmt s = .ok a) :
    a.secondaryDecimalAmount = s := by
  unfold setSecondaryToPrimary at h
  cases h2 : (if props.exchangeSecondaryToPrimaryRatio = str "0" then Except.ok (str "0")
      else bdiv s props.exchangeSecondaryToPrimaryRatio 18) with
  | error e =>
    rw [h2] at h
    cases h
  | ok q =>
    rw [h2] at h
    injection h with h3
    subst h3
    rfl

/-- C4, counterexample.  A ratio-only props update (override and counter
unchanged) with the secondary side active and the new ratio the empty string
does not recompute the derived primary side: the conversion faults inside
the division (only the literal ratio "0" is short-circuited), so no state
with a recomputed derived field is produced — contradicting the claim that
every such ratio change recomputes the derived side.  (The active side's raw
value is still untouched, since no state change happens at all.) -/
theorem c4_ratio_update_counterexample :
    componentWillReceiveProps propsEmptyRatio id stSec = .error "Division by zero" := rfl

/-- C4, amended.  On a props update with the override amount and the
force-update counter unchanged, whenever the update succeeds it recomputes
only the derived side — primary-to-secondary when the primary side is active
(always succeeds), secondary-to-primary when the secondary side is active —
and leaves the active side's raw decimal amount, the toggle, the override
and the counter exactly as they were; when the conversion faults (secondary
active, ratio parsing to zero without being the literal "0") no state change
occurs at all, so a live exchange-rate tick still never overwrites the value
the user is typing. -/
theorem c4_ratio_update_amended (nextProps : Props) (fmt : List Char → List Char)
    (st : EngineState)
    (hov : nextProps.overridePrimaryDecimalAmount = st.overridePrimaryDecimalAmount)
    (hctr : nextProps.forceUpdateGuiCounter = st.forceUpdateGuiCounter)
    (st' : EngineState) (h : componentWillReceiveProps nextProps fmt st = .ok st') :
    (st.isToggled = false →
      st'.primaryDecimalAmount = st.primaryDecimalAmount ∧
      setPrimaryToSecondary nextProps fmt st.primaryDecimalAmount = .ok (amountsOfState st')) ∧
    (st.isToggled = true →
      st'.secondaryDecimalAmount = st.secondaryDecimalAmount ∧
      setSecondaryToPrimary nextProps fmt st.secondaryDecimalAmount = .ok (amountsOfState st')) ∧
    st'.isToggled = st.isToggled ∧
    st'.overridePrimaryDecimalAmount = st.overridePrimaryDecimalAmount ∧
    st'.forceUpdateGuiCounter = st.forceUpdateGuiCounter := by
  unfold componentWillReceiveProps at h
  rw [if_neg (by push_neg; exact ⟨hov, hctr⟩)] at h
  cases hts : st.isToggled with
  | false =>
    rw [if_pos (by rw [hts])] at h
    cases hE : setPrimaryToSecondary nextProps fmt st.primaryDecimalAmount with
    | error e =>
      rw [hE] at h
      cases h
    | ok a =>
      rw [hE] at h
      injection h with h2
      subst h2
      refine ⟨?_, ?_, hts, rfl, rfl⟩
      · intro _
        exact ⟨setPrimaryToSecondary_keeps nextProps fmt st.primaryDecimalAmount a hE, rfl⟩
      · intro hT
        exact Bool.noConfusion hT
  | true =>
    rw [if_neg (by rw [hts]; simp)] at h
    cases hE : setSecondaryToPrimary nextProps fmt st.secondaryDecimalAmount with
    | error e =>
      rw [hE] at h
      cases h
    | ok a =>
      rw [hE] at h
      injection h with h2
      subst h2
      refine ⟨?_, ?_, hts, rfl, rfl⟩
      · intro hF
        exact Bool.noConfusion hF
      · intro _
        exact ⟨setSecondaryToPrimary_keeps nextProps fmt st.secondaryDecimalAmount a hE, rfl⟩

/-- C4, witness: a ratio-only update under ratio "2" on a state typing "1.5"
into the primary field succeeds and leaves the primary amount untouched. -/
theorem c4_ratio_update_amended_witness :
    componentWillReceiveProps propsRT id stTyped = .ok stW ∧
    stW.primaryDecimalAmount = stTyped.primaryDecimalAmount :=
  ⟨rfl, ((c4_ratio_update_amended propsRT id stTyped rfl rfl stW rfl).1 rfl).1⟩

/-- C5, counterexample.  An accepted keystroke ("1" passes the acceptance
check) on the secondary side under the empty exchange ratio faults inside
the derived-side conversion before the state commit, so `onAmountChanged`
is invoked zero times — contradicting the claim that every accepted
keystroke produces exactly one invocation. -/
theorem c5_callback_counterexample :
    checkKeyPress (str "1") (str "1") = true ∧
    onKeyPress propsEmptyRatio id stSec (str "1") (str "1") 8 setSecondaryToPrimary =
      .error "Division by zero" := ⟨rfl, rfl⟩

/-- C5, amended.  Callback cardinality of the keystroke handler: a rejected
keystroke (not a Backspace and failing the acceptance check) changes nothing
and emits zero `onAmountChanged` invocations; a processed keystroke
(Backspace, or digit/period passing the check) whose conversion succeeds
commits the new amounts and emits exactly one invocation carrying the new
canonical primary decimal value; a processed keystroke whose conversion
faults (possible only on the secondary side with a zero-parsing ratio other
than the literal "0") propagates the error and emits zero invocations. -/
theorem c5_callback_amended (props : Props) (fmt : List Char → List Char) (st : EngineState)
    (key acc : List Char) (m : Nat)
    (setAmounts : Props → (List Char → List Char) → List Char → Except String Amounts) :
    (acceptedAccum key acc m = none →
      onKeyPress props fmt st key acc m setAmounts = .ok (st, [])) ∧
    (∀ acc' a, acceptedAccum key acc m = some acc' → setAmounts props fmt acc' = .ok a →
      onKeyPress props fmt st key acc m setAmounts =
        .ok (applyAmounts st a, [a.primaryDecimalAmount])) ∧
    (∀ acc' e, acceptedAccum key acc m = some acc' → setAmounts props fmt acc' = .error e →
      onKeyPress props fmt st key acc m setAmounts = .error e) := by
  refine ⟨?_, ?_, ?_⟩
  · intro hnone
    by_cases h1 : replaceFirstComma key = str "Backspace"
    · exfalso
      simp [acceptedAccum, h1] at hnone
    · by_cases h2 : checkKeyPress (replaceFirstComma key) acc
      · exfalso
        simp [acceptedAccum, h1, h2] at hnone
      · simp [onKeyPress, h1, h2]
  · intro acc' a hsome hok
    by_cases h1 : replaceFirstComma key = str "Backspace"
    · have hacc : truncateDecimals acc.dropLast m = acc' := by
        simpa [acceptedAccum, h1] using hsome
      subst hacc
      simp [onKeyPress, setStateAmounts, h1, hok]
    · by_cases h2 : checkKeyPress (replaceFirstComma key) acc
      · have hacc : truncateDecimals (acc ++ replaceFirstComma key) m = acc' := by
          simpa [acceptedAccum, h1, h2] using hsome
        subst hacc
        simp [onKeyPress, setStateAmounts, h1, h2, hok]
      · exfalso
        simp [acceptedAccum, h1, h2] at hsome
  · intro acc' e hsome herr
    by_cases h1 : replaceFirstComma key = str "Backspace"
    · have hacc : truncateDecimals acc.dropLast m = acc' := by
        simpa [acceptedAccum, h1] using hsome
      subst hacc
      simp [onKeyPress, setStateAmounts, h1, herr]
    · by_cases h2 : checkKeyPress (replaceFirstComma key) acc
      · have hacc : truncateDecimals (acc ++ replaceFirstComma key) m = acc' := by
          simpa [acceptedAccum, h1, h2] using hsome
        subst hacc
        simp [onKeyPress, setStateAmounts, h1, h2, herr]
      · exfalso
        simp [acceptedAccum, h1, h2] at hsome

/-- C5, witness: the accepted keystroke "1" on the empty primary accumulator
under ratio "2" commits the new amounts and emits exactly one invocation
with the new primary decimal "1". -/
theorem c5_callback_amended_witness :
    onKeyPress propsRT id st0 (str "1") [] 8 setPrimaryToSecondary =
      .ok (applyAmounts st0 amountsW, [amountsW.primaryDecimalAmount]) :=
  (c5_callback_amended propsRT id st0 (str "1") [] 8 setPrimaryToSecondary).2.1
    (str "1") amountsW rfl rfl
